import Mathlib

/-!
Shallow embedding of the pillio backend's reminder/adherence engine
(`app/services/reminder_service.py`, `app/schemas/reminder.py`,
`app/schemas/common.py`, `app/models/*`).

Conventions of the embedding:
* Calendar dates are integers counting days from an epoch that falls on a
  Monday, so `d.emod 7` is Python's `date.weekday()` (0 = Monday .. 6 = Sunday).
* Instants (`datetime`) are integers counting microseconds from midnight of
  epoch day 0; `datetime.combine(d, t) = d * microsPerDay + t`, where a
  time-of-day `t` satisfies `0 ≤ t < microsPerDay`.  `time.min = 0` and
  `time.max = microsPerDay - 1` (Python's `time.max` is 23:59:59.999999).
* The SQLAlchemy session is modelled as an explicit `DB` record of table
  contents; a query is a filter over a table; `scalar_one_or_none` is a
  function that errors on more than one row.  Operations that can raise
  return `Except DbError`; an exception means the transaction is never
  committed, so the caller's state is unchanged.
* Row ids are assigned by the database; the code paths modelled here never
  read the id of a freshly inserted log row, so inserted rows carry id 0.
-/

namespace Pillio

/-- Microseconds per day: the resolution of Python `datetime`. -/
def microsPerDay : Int := 86400000000

/-- Python `datetime.combine(d, t)` for a date `d` and a time-of-day `t`. -/
def combine (d t : Int) : Int := d * microsPerDay + t

/-- Start of day `d`, i.e. `datetime.combine(d, time.min)`. -/
def startOfDay (d : Int) : Int := combine d 0

/-- End of day `d`, i.e. `datetime.combine(d, time.max)`. -/
def endOfDay (d : Int) : Int := combine d (microsPerDay - 1)

/-- The `FrequencyType` enum from `app/schemas/common.py`. -/
inductive FrequencyType where
  | daily
  | specific_days
  | interval
deriving DecidableEq

/-- The `ReminderStatus` enum from `app/schemas/common.py`. -/
inductive ReminderStatus where
  | taken
  | skipped
  | missed
deriving DecidableEq

/-- A row of the `reminders` table (`app/models/reminder.py`).  Timestamps
`created_at`/`updated_at` from the model base class are not read by the
verified code paths and are omitted. -/
structure Reminder where
  id : Int
  user_id : Int
  medicine_id : Int
  prescription_id : Option Int
  reminder_time : Int
  frequency : FrequencyType
  specific_days : Option (List Int)
  dosage_amount : Option String
  dosage_unit : Option String
  start_date : Int
  end_date : Option Int
  is_active : Bool
  notes : Option String
deriving DecidableEq

/-- A row of the `reminder_logs` table (`app/models/reminder_log.py`). -/
structure ReminderLog where
  id : Int
  reminder_id : Int
  scheduled_time : Int
  taken_time : Option Int
  status : ReminderStatus
  notes : Option String
  created_at : Int
deriving DecidableEq

/-- A row of the `medicines` table; only the columns read by
`create_reminder` (primary key and owner) are modelled. -/
structure Medicine where
  id : Int
  user_id : Int
deriving DecidableEq

/-- The database state seen by the reminder service. -/
structure DB where
  reminders : List Reminder
  logs : List ReminderLog
  medicines : List Medicine
deriving DecidableEq

/-- Errors the service layer can raise. -/
inductive DbError where
  /-- Raised by SQLAlchemy `scalar_one_or_none` on a result with more than one row. -/
  | multipleResultsFound
  /-- The `ValueError` from `create_reminder` when the medicine is absent. -/
  | medicineNotFound
deriving DecidableEq

instance {ε α : Type} [DecidableEq ε] [DecidableEq α] : DecidableEq (Except ε α) := by
  intro x y
  cases x <;> cases y
  case ok.ok a b =>
    exact if h : a = b then .isTrue (by rw [h]) else
      .isFalse (fun hc => h (Except.ok.inj hc))
  case error.error e f =>
    exact if h : e = f then .isTrue (by rw [h]) else
      .isFalse (fun hc => h (Except.error.inj hc))
  case ok.error a e => exact .isFalse (fun hc => Except.noConfusion hc)
  case error.ok e a => exact .isFalse (fun hc => Except.noConfusion hc)

/-- SQLAlchemy `Result.scalar_one_or_none`: `none` on zero rows, the row on
exactly one, raises `MultipleResultsFound` otherwise. -/
def scalar_one_or_none {α : Type} : List α → Except DbError (Option α)
  | [] => .ok none
  | [x] => .ok (some x)
  | _ :: _ :: _ => .error .multipleResultsFound

/-- The `end_date IS NULL OR end_date >= today` disjunct used by
`get_today_reminders` and `mark_overdue_reminders_as_missed`. -/
def endDateCovers (e : Option Int) (today : Int) : Bool :=
  match e with
  | none => true
  | some ed => today ≤ ed

/-- The reminder query shared by `get_today_reminders` and
`mark_overdue_reminders_as_missed`: the user's active reminders whose
validity window covers `today`. -/
def activeWindowReminders (db : DB) (user_id today : Int) : List Reminder :=
  db.reminders.filter (fun r =>
    r.user_id == user_id && r.is_active &&
    r.start_date ≤ today && endDateCovers r.end_date today)

/-- Embeds `get_today_reminders` (`reminder_service.py:144`): active reminders in
window, then filtered by the recurrence rule on today's weekday.  The SQL
`ORDER BY reminder_time` only affects presentation order and is omitted. -/
def get_today_reminders (db : DB) (user_id today : Int) : List Reminder :=
  let reminders := activeWindowReminders db user_id today
  let today_weekday := today.emod 7
  reminders.filter (fun r =>
    match r.frequency with
    | .daily => true
    | .specific_days =>
        match r.specific_days with
        | some days => !days.isEmpty && days.contains today_weekday
        | none => false
    | .interval => true)

/-- The log query of `get_reminder_status` (`reminder_service.py:193`):
logs of a reminder whose `scheduled_time` lies within `for_date`. -/
def logsForDay (db : DB) (reminder_id for_date : Int) : List ReminderLog :=
  db.logs.filter (fun l =>
    l.reminder_id == reminder_id &&
    startOfDay for_date ≤ l.scheduled_time && l.scheduled_time ≤ endOfDay for_date)

/-- Runs `ORDER BY created_at DESC LIMIT 1` over a list of logs.  On a tie in
`created_at` SQL leaves the choice unspecified; the model keeps the row that
comes first in table order. -/
def latestLog : List ReminderLog → Option ReminderLog
  | [] => none
  | l :: ls =>
    match latestLog ls with
    | none => some l
    | some m => if m.created_at > l.created_at then some m else some l

/-- Embeds `get_reminder_status` (`reminder_service.py:181`).  `now` is
`datetime.now()`, passed explicitly.  The two `scalar_one_or_none` calls in
the source cannot raise here: the log query has `LIMIT 1` and the reminder
lookup is by primary key, so both are modelled by `latestLog`/`find?`. -/
def get_reminder_status (db : DB) (reminder_id for_date now : Int) :
    Option ReminderLog × ReminderStatus :=
  match latestLog (logsForDay db reminder_id for_date) with
  | some log => (some log, log.status)
  | none =>
    match db.reminders.find? (fun r => r.id == reminder_id) with
    | none => (none, .missed)
    | some reminder =>
      if now > combine for_date reminder.reminder_time then (none, .missed)
      else (none, .skipped)  -- "Default status before action"

/-- The join filter of the adherence queries: a log row joined to a reminder
row owned by `user_id`.  Under primary-key uniqueness of `reminders.id` the
join contributes each log at most once. -/
def logBelongsTo (db : DB) (user_id : Int) (l : ReminderLog) : Bool :=
  db.reminders.any (fun r => r.id == l.reminder_id && r.user_id == user_id)

/-- The log-range query of `get_adherence_stats` (`reminder_service.py:286`). -/
def logsInRange (db : DB) (user_id start_date end_date : Int) : List ReminderLog :=
  db.logs.filter (fun l =>
    logBelongsTo db user_id l &&
    startOfDay start_date ≤ l.scheduled_time && l.scheduled_time ≤ endOfDay end_date)

/-- Round an exact rational half-to-even, modelling Python's `round` on the
value the source computes. -/
def roundHalfEven (q : ℚ) : ℤ :=
  let f : ℤ := ⌊q⌋
  let r : ℚ := q - (f : ℚ)
  if r < 1/2 then f
  else if 1/2 < r then f + 1
  else if f % 2 = 0 then f else f + 1

/-- Python `round(q, 2)` on an exact rational. -/
def round2 (q : ℚ) : ℚ := (roundHalfEven (q * 100) : ℚ) / 100

/-- Return record of `get_adherence_stats`. -/
structure AdherenceStats where
  total_scheduled : Nat
  taken : Nat
  skipped : Nat
  missed : Nat
  adherence_rate : ℚ
deriving DecidableEq

/-- Embeds `get_adherence_stats` (`reminder_service.py:278`): counts of the user's
logs in the window by status; rate `taken/total*100` (0 when no logs),
rounded to two decimals. -/
def get_adherence_stats (db : DB) (user_id start_date end_date : Int) :
    AdherenceStats :=
  let logs := logsInRange db user_id start_date end_date
  let taken := logs.countP (fun l => l.status == .taken)
  let skipped := logs.countP (fun l => l.status == .skipped)
  let missed := logs.countP (fun l => l.status == .missed)
  let total := logs.length
  let adherence_rate : ℚ :=
    if total > 0 then (taken : ℚ) / (total : ℚ) * 100 else 0
  { total_scheduled := total, taken := taken, skipped := skipped,
    missed := missed, adherence_rate := round2 adherence_rate }

/-- The missed log row built by `mark_overdue_reminders_as_missed`; rows are
inserted at commit time, so `created_at` is the commit instant `now`. -/
def mkMissedLog (r : Reminder) (scheduled now : Int) : ReminderLog :=
  { id := 0, reminder_id := r.id, scheduled_time := scheduled,
    taken_time := none, status := .missed, notes := none, created_at := now }

/-- The per-reminder existing-log query inside
`mark_overdue_reminders_as_missed` (`reminder_service.py:414`): logs of the
reminder with `scheduled_time` between start of day and `now`. -/
def sweepLogQuery (logs : List ReminderLog) (reminder_id start_of_day now : Int) :
    List ReminderLog :=
  logs.filter (fun l =>
    l.reminder_id == reminder_id &&
    start_of_day ≤ l.scheduled_time && l.scheduled_time ≤ now)

/-- The `for reminder in reminders` loop of
`mark_overdue_reminders_as_missed`.  `staged` are the rows added by
`db.add` earlier in the loop; the session autoflushes, so the existing-log
query sees them alongside the committed `logs`.  Returns the staged rows and
the count, or the first `scalar_one_or_none` error. -/
def sweepLoop (logs : List ReminderLog) (today now : Int) :
    List Reminder → List ReminderLog → Nat →
    Except DbError (List ReminderLog × Nat)
  | [], staged, count => .ok (staged, count)
  | r :: rest, staged, count =>
    let reminder_datetime := combine today r.reminder_time
    if now > reminder_datetime then
      match scalar_one_or_none
          (sweepLogQuery (logs ++ staged) r.id (startOfDay today) now) with
      | .error e => .error e
      | .ok (some _) => sweepLoop logs today now rest staged count
      | .ok none =>
          sweepLoop logs today now rest
            (staged ++ [mkMissedLog r reminder_datetime now]) (count + 1)
    else
      sweepLoop logs today now rest staged count

/-- Embeds `mark_overdue_reminders_as_missed` (`reminder_service.py:385`): missed
rows for the user's active in-window reminders that are past due and have no
same-day log yet.  Commits only when `missed_count > 0`; an exception
anywhere aborts the transaction with nothing committed. -/
def mark_overdue_reminders_as_missed (db : DB) (user_id today now : Int) :
    Except DbError (DB × Nat) :=
  let reminders := activeWindowReminders db user_id today
  match sweepLoop db.logs today now reminders [] 0 with
  | .error e => .error e
  | .ok (staged, count) =>
    .ok (if count > 0 then { db with logs := db.logs ++ staged } else db, count)

/-- The state the caller observes after `mark_overdue_reminders_as_missed`:
on success the committed state, on an exception the unchanged input state
(the session is rolled back, nothing was committed). -/
def sweepCommittedState (db : DB) (user_id today now : Int) : DB :=
  match mark_overdue_reminders_as_missed db user_id today now with
  | .ok (db', _) => db'
  | .error _ => db

/-- The per-day log query of `get_adherence_streak`
(`reminder_service.py:500`): the user's logs scheduled on `check_date`. -/
def dayLogs (db : DB) (user_id check_date : Int) : List ReminderLog :=
  db.logs.filter (fun l =>
    logBelongsTo db user_id l &&
    startOfDay check_date ≤ l.scheduled_time && l.scheduled_time ≤ endOfDay check_date)

/-- Loop state of `get_adherence_streak`. -/
structure StreakAcc where
  current_streak : Nat
  longest_streak : Nat
  last_perfect_date : Option Int
deriving DecidableEq

/-- One iteration of the `for i in range(365, -1, -1)` loop of
`get_adherence_streak`, at offset `i` before `today`. -/
def streakStep (db : DB) (user_id today : Int) (acc : StreakAcc) (i : Nat) :
    StreakAcc :=
  let check_date := today - (i : Int)
  let logs := dayLogs db user_id check_date
  if logs.isEmpty then
    -- No reminders scheduled this day: skip it.
    acc
  else
    let taken := logs.countP (fun l => l.status == .taken)
    let total := logs.length
    if taken == total && total > 0 then
      let cur := acc.current_streak + 1
      { current_streak := cur,
        longest_streak :=
          if cur > acc.longest_streak then cur else acc.longest_streak,
        last_perfect_date := some check_date }
    else if i == 0 then
      -- Today might not be complete yet: do not break the streak.
      acc
    else if check_date == today then
      acc
    else
      { acc with current_streak := 0 }

/-- Return record of `get_adherence_streak`. -/
structure StreakResult where
  current_streak : Nat
  longest_streak : Nat
  last_taken_date : Option Int
deriving DecidableEq

/-- Embeds `get_adherence_streak` (`reminder_service.py:487`): scan the 366 days
`today-365 .. today` oldest to newest. -/
def get_adherence_streak (db : DB) (user_id today : Int) : StreakResult :=
  let offsets := (List.range 366).map (fun k => 365 - k)
  let acc := offsets.foldl (streakStep db user_id today)
    { current_streak := 0, longest_streak := 0, last_perfect_date := none }
  { current_streak := acc.current_streak,
    longest_streak := acc.longest_streak,
    last_taken_date := acc.last_perfect_date }

/-- The `ReminderCreate` payload (`app/schemas/reminder.py:21`).  The pydantic
schema declares no validators: any combination of these fields passes
request validation. -/
structure ReminderCreate where
  medicine_id : Int
  prescription_id : Option Int
  reminder_time : Int
  frequency : FrequencyType
  specific_days : Option (List Int)
  dosage_amount : Option String
  dosage_unit : Option String
  start_date : Int
  end_date : Option Int
  is_active : Bool
  notes : Option String
deriving DecidableEq

/-- The reminder row `create_reminder` builds from its payload; `new_id` is
the database-assigned primary key. -/
def reminderOf (user_id new_id : Int) (data : ReminderCreate) : Reminder :=
  { id := new_id, user_id := user_id, medicine_id := data.medicine_id,
    prescription_id := data.prescription_id,
    reminder_time := data.reminder_time, frequency := data.frequency,
    specific_days := data.specific_days,
    dosage_amount := data.dosage_amount, dosage_unit := data.dosage_unit,
    start_date := data.start_date, end_date := data.end_date,
    is_active := data.is_active, notes := data.notes }

/-- Embeds `create_reminder` (`reminder_service.py:21`): verifies the medicine
exists and belongs to the user (`ValueError` otherwise, modelled as
`medicineNotFound`), then persists the reminder as given.  The medicine
lookup is by primary key, so `scalar_one_or_none` is modelled by `find?`. -/
def create_reminder (db : DB) (user_id : Int) (data : ReminderCreate)
    (new_id : Int) : Except DbError (DB × Reminder) :=
  match db.medicines.find? (fun m =>
      m.id == data.medicine_id && m.user_id == user_id) with
  | none => .error .medicineNotFound
  | some _ =>
    let r := reminderOf user_id new_id data
    .ok ({ db with reminders := db.reminders ++ [r] }, r)

/-! ### Helper lemmas -/

theorem latestLog_mem {ls : List ReminderLog} {m : ReminderLog}
    (h : latestLog ls = some m) : m ∈ ls := by
  induction ls with
  | nil => simp [latestLog] at h
  | cons a rest ih =>
    unfold latestLog at h
    cases hrest : latestLog rest with
    | none =>
      rw [hrest] at h
      exact (Option.some.inj h) ▸ List.mem_cons_self a rest
    | some k =>
      rw [hrest] at h
      have h' : (if k.created_at > a.created_at then some k else some a) = some m := h
      by_cases hgt : k.created_at > a.created_at
      · rw [if_pos hgt] at h'
        exact List.mem_cons_of_mem a (ih ((Option.some.inj h') ▸ hrest))
      · rw [if_neg hgt] at h'
        exact (Option.some.inj h') ▸ List.mem_cons_self a rest

theorem latestLog_eq_of_strict_max {ls : List ReminderLog} {l : ReminderLog}
    (hl : l ∈ ls)
    (hmax : ∀ l' ∈ ls, l' ≠ l → l'.created_at < l.created_at) :
    latestLog ls = some l := by
  induction ls with
  | nil => cases hl
  | cons a rest ih =>
    rcases List.mem_cons.mp hl with heq | hmem
    · subst heq
      unfold latestLog
      cases hrest : latestLog rest with
      | none => rfl
      | some k =>
        show (if k.created_at > l.created_at then some k else some l) = some l
        have hk : k ∈ rest := latestLog_mem hrest
        by_cases hkl : k = l
        · subst hkl; simp
        · have hlt : k.created_at < l.created_at :=
            hmax k (List.mem_cons_of_mem l hk) hkl
          rw [if_neg (by omega)]
    · have ha : a ≠ l → a.created_at < l.created_at :=
        fun hne => hmax a (List.mem_cons_self a rest) hne
      have hrest : latestLog rest = some l :=
        ih hmem (fun l' hl' hne => hmax l' (List.mem_cons_of_mem a hl') hne)
      unfold latestLog
      rw [hrest]
      show (if l.created_at > a.created_at then some l else some a) = some l
      by_cases hal : a = l
      · subst hal; simp
      · rw [if_pos (ha hal)]

/-! ### C9 — status of a nonexistent reminder -/

/-- C9. -- For a `reminder_id` matching no stored reminder and having no
logged events on the queried date, `get_reminder_status` returns
`(None, "missed")` — and this answer coincides with the one produced for any
existing, past-due reminder with no events, so the two cases are
indistinguishable to the caller. -/
theorem claim_C9_missing_reminder_reads_missed
    (db : DB) (rid d now : Int)
    (hlogs : logsForDay db rid d = [])
    (hfind : db.reminders.find? (fun r => r.id == rid) = none) :
    get_reminder_status db rid d now = (none, .missed) ∧
    (∀ (db' : DB) (rid' d' now' : Int) (r : Reminder),
        logsForDay db' rid' d' = [] →
        db'.reminders.find? (fun x => x.id == rid') = some r →
        now' > combine d' r.reminder_time →
        get_reminder_status db' rid' d' now' =
          get_reminder_status db rid d now) := by
  have h1 : get_reminder_status db rid d now = (none, .missed) := by
    unfold get_reminder_status
    rw [hlogs, hfind]
    rfl
  refine ⟨h1, ?_⟩
  intro db' rid' d' now' r hlogs' hfind' hdue
  rw [h1]
  unfold get_reminder_status
  rw [hlogs', hfind']
  show (if now' > combine d' r.reminder_time
      then ((none : Option ReminderLog), ReminderStatus.missed)
      else (none, .skipped)) = (none, .missed)
  rw [if_pos hdue]

theorem claim_C9_witness :
    get_reminder_status { reminders := [], logs := [], medicines := [] } 1 0 0 =
      (none, .missed) :=
  (claim_C9_missing_reminder_reads_missed
    { reminders := [], logs := [], medicines := [] } 1 0 0 (by rfl) (by rfl)).1

/-! ### C1 — no-event status versus the scheduled instant -/

/-- A daily 08:00 reminder starting on day 0, used to exhibit the behaviour
of `get_reminder_status` at the exact scheduled instant. -/
def c1reminder : Reminder :=
  { id := 1, user_id := 1, medicine_id := 1, prescription_id := none,
    reminder_time := 28800000000, frequency := .daily, specific_days := none,
    dosage_amount := none, dosage_unit := none, start_date := 0,
    end_date := none, is_active := true, notes := none }

def c1db : DB := { reminders := [c1reminder], logs := [], medicines := [] }

/-- C1, counterexample. --  The claim says the resolver returns "missed"
whenever `now >= scheduled_instant`.  At `now = scheduled_instant` exactly
(day 5, 08:00, no event logged) the code's strict `now > reminder_datetime`
comparison fails, and the resolver returns the "skipped" placeholder, not
"missed". -/
theorem claim_C1_counterexample :
    combine 5 c1reminder.reminder_time ≥ combine 5 c1reminder.reminder_time ∧
    logsForDay c1db 1 5 = [] ∧
    get_reminder_status c1db 1 5 (combine 5 c1reminder.reminder_time) =
      (none, .skipped) ∧
    (ReminderStatus.skipped ≠ ReminderStatus.missed) := by
  refine ⟨le_refl _, ?_, ?_, ?_⟩ <;> decide

/-- C1, amended. --  With no event logged for `(reminder, date)` and the
reminder present, `get_reminder_status` returns `(None, "missed")` exactly
when `now` is strictly after the scheduled instant
`combine(date, reminder_time)`; when `now ≤ scheduled_instant` (including
equality) it returns `(None, "skipped")`, the pre-action placeholder that
the display layer renders as the non-terminal "upcoming". -/
theorem claim_C1_amended (db : DB) (rid d now : Int) (r : Reminder)
    (hlogs : logsForDay db rid d = [])
    (hfind : db.reminders.find? (fun x => x.id == rid) = some r) :
    (now > combine d r.reminder_time →
        get_reminder_status db rid d now = (none, .missed)) ∧
    (now ≤ combine d r.reminder_time →
        get_reminder_status db rid d now = (none, .skipped)) := by
  unfold get_reminder_status
  rw [hlogs, hfind]
  constructor
  · intro hdue
    show (if now > combine d r.reminder_time
        then ((none : Option ReminderLog), ReminderStatus.missed)
        else (none, .skipped)) = (none, .missed)
    rw [if_pos hdue]
  · intro hnot
    show (if now > combine d r.reminder_time
        then ((none : Option ReminderLog), ReminderStatus.missed)
        else (none, .skipped)) = (none, .skipped)
    rw [if_neg (by omega)]

theorem claim_C1_witness :
    get_reminder_status c1db 1 5 (combine 5 c1reminder.reminder_time + 1) =
      (none, .missed) :=
  (claim_C1_amended c1db 1 5 (combine 5 c1reminder.reminder_time + 1) c1reminder
    (by decide) (by decide)).1 (by decide)

/-! ### C5 — latest same-day event is authoritative, independent of `now` -/

/-- C5. --  Once events exist for `(reminder, day)`, `get_reminder_status`
returns the most-recently-created one together with its status, for every
value of `now` — in particular, once a "taken" event is the latest, the
resolved status is always "taken".  (On `created_at` ties SQL's
`ORDER BY … DESC LIMIT 1` is nondeterministic, so the latest event is
characterised by a strictly maximal `created_at`.) -/
theorem claim_C5_latest_event_terminal (db : DB) (rid d : Int) (l : ReminderLog)
    (hl : l ∈ logsForDay db rid d)
    (hmax : ∀ l' ∈ logsForDay db rid d, l' ≠ l → l'.created_at < l.created_at) :
    (∀ now : Int, get_reminder_status db rid d now = (some l, l.status)) ∧
    (l.status = .taken →
      ∀ now : Int, (get_reminder_status db rid d now).2 = .taken) := by
  have hlatest : latestLog (logsForDay db rid d) = some l :=
    latestLog_eq_of_strict_max hl hmax
  have hres : ∀ now : Int, get_reminder_status db rid d now = (some l, l.status) := by
    intro now
    unfold get_reminder_status
    rw [hlatest]
  exact ⟨hres, fun htaken now => by rw [hres now, htaken]⟩

def c5skippedLog : ReminderLog :=
  { id := 1, reminder_id := 1, scheduled_time := combine 5 28800000000,
    taken_time := none, status := .skipped, notes := none, created_at := 10 }

def c5correctionLog : ReminderLog :=
  { id := 2, reminder_id := 1, scheduled_time := combine 5 28800000000,
    taken_time := some (combine 5 30000000000), status := .taken, notes := none,
    created_at := 20 }

def c5db : DB :=
  { reminders := [], logs := [c5skippedLog, c5correctionLog], medicines := [] }

theorem claim_C5_witness :
    get_reminder_status c5db 1 5 (combine 400 0) =
      (some c5correctionLog, .taken) := by
  have h := claim_C5_latest_event_terminal c5db 1 5 c5correctionLog
    (by decide) (by decide)
  rw [h.1 (combine 400 0)]
  rfl

/-! ### C2 — membership in today's reminder list -/

theorem endDateCovers_iff (e : Option Int) (today : Int) :
    endDateCovers e today = true ↔ (e = none ∨ ∃ ed, e = some ed ∧ today ≤ ed) := by
  cases e <;> simp [endDateCovers]

/-- C2. --  `get_today_reminders` returns exactly the user's stored
reminders that are active, whose validity window `[start_date, end_date]`
(open-ended when `end_date` is null) covers today, and whose recurrence rule
holds today: unconditionally for `daily` and `interval`, and exactly when
today's weekday index is a member of `specific_days` for the
specific-weekdays kind. -/
theorem claim_C2_today_membership (db : DB) (uid today : Int) (r : Reminder) :
    r ∈ get_today_reminders db uid today ↔
      r ∈ db.reminders ∧ r.user_id = uid ∧ r.is_active = true ∧
      r.start_date ≤ today ∧
      (r.end_date = none ∨ ∃ e, r.end_date = some e ∧ today ≤ e) ∧
      (match r.frequency with
       | .daily => True
       | .specific_days => ∃ ds, r.specific_days = some ds ∧ today.emod 7 ∈ ds
       | .interval => True) := by
  unfold get_today_reminders activeWindowReminders
  simp only [List.mem_filter, Bool.and_eq_true, beq_iff_eq, decide_eq_true_eq,
    endDateCovers_iff]
  constructor
  · rintro ⟨⟨hmem, ⟨⟨huser, hact⟩, hstart⟩, hend⟩, hfreq⟩
    refine ⟨hmem, huser, hact, hstart, hend, ?_⟩
    cases hf : r.frequency <;> rw [hf] at hfreq <;> try trivial
    cases hs : r.specific_days <;> rw [hs] at hfreq
    · simp at hfreq
    · rename_i ds
      simp at hfreq
      exact ⟨ds, rfl, hfreq.2⟩
  · rintro ⟨hmem, huser, hact, hstart, hend, hfreq⟩
    refine ⟨⟨hmem, ⟨⟨huser, hact⟩, hstart⟩, hend⟩, ?_⟩
    cases hf : r.frequency <;> rw [hf] at hfreq <;> try trivial
    · rcases hfreq with ⟨ds, hds, hwmem⟩
      rw [hds]
      simp
      exact ⟨List.ne_nil_of_mem hwmem, hwmem⟩

/-! ### C6 — adherence statistics -/

theorem count_status_partition (ls : List ReminderLog) :
    ls.countP (fun l => l.status == .taken) +
      ls.countP (fun l => l.status == .skipped) +
      ls.countP (fun l => l.status == .missed) = ls.length := by
  induction ls with
  | nil => rfl
  | cons a rest ih =>
    simp only [List.countP_cons, List.length_cons]
    cases ha : a.status
    all_goals simp [ha]
    all_goals omega

def c6rem : Reminder :=
  { id := 1, user_id := 1, medicine_id := 1, prescription_id := none,
    reminder_time := 0, frequency := .daily, specific_days := none,
    dosage_amount := none, dosage_unit := none, start_date := 0,
    end_date := none, is_active := true, notes := none }

def c6log (i : Int) (st : ReminderStatus) : ReminderLog :=
  { id := i, reminder_id := 1, scheduled_time := combine 0 i,
    taken_time := none, status := st, notes := none, created_at := i }

/-- Three events, one taken: `taken/total*100 = 100/3`, which has no exact
two-decimal representation. -/
def c6cexDB : DB :=
  { reminders := [c6rem], logs := [c6log 1 .taken, c6log 2 .missed, c6log 3 .missed],
    medicines := [] }

/-- Ten events, seven taken: the worked example of the claim. -/
def c6exDB : DB :=
  { reminders := [c6rem],
    logs := [c6log 1 .taken, c6log 2 .taken, c6log 3 .taken, c6log 4 .taken,
             c6log 5 .taken, c6log 6 .taken, c6log 7 .taken,
             c6log 8 .skipped, c6log 9 .skipped, c6log 10 .missed],
    medicines := [] }

/-- C6, counterexample. --  The claim says `adherence_rate` equals
`taken/total*100`; the code rounds that quotient to two decimals
(`round(adherence_rate, 2)`), so with 1 taken out of 3 events the stored
rate is `33.33`, not `100/3`. -/
theorem claim_C6_counterexample :
    (get_adherence_stats c6cexDB 1 0 0).taken = 1 ∧
    (get_adherence_stats c6cexDB 1 0 0).total_scheduled = 3 ∧
    (get_adherence_stats c6cexDB 1 0 0).adherence_rate = 3333/100 ∧
    (get_adherence_stats c6cexDB 1 0 0).adherence_rate ≠
      ((get_adherence_stats c6cexDB 1 0 0).taken : ℚ) /
        ((get_adherence_stats c6cexDB 1 0 0).total_scheduled : ℚ) * 100 := by
  have hr : (get_adherence_stats c6cexDB 1 0 0).adherence_rate = 3333/100 := by
    show round2 ((1 : ℚ)/3*100) = 3333/100
    norm_num [round2, roundHalfEven]
  have h2 : (get_adherence_stats c6cexDB 1 0 0).taken = 1 := by rfl
  have h3 : (get_adherence_stats c6cexDB 1 0 0).total_scheduled = 3 := by rfl
  refine ⟨h2, h3, hr, ?_⟩
  rw [hr, h2, h3]
  norm_num

/-- C6, amended. --  `get_adherence_stats` counts the user's events in the
window by status; `total_scheduled` is the number of events and the three
counts partition it; `adherence_rate` is `taken/total*100` **rounded to two
decimal places** (0 when the window has no events); with 10 events of which
7 are taken, the rate is exactly 70. -/
theorem claim_C6_amended_stats (db : DB) (uid s e : Int) :
    (get_adherence_stats db uid s e).total_scheduled =
      (logsInRange db uid s e).length ∧
    (get_adherence_stats db uid s e).taken =
      (logsInRange db uid s e).countP (fun l => l.status == .taken) ∧
    (get_adherence_stats db uid s e).skipped =
      (logsInRange db uid s e).countP (fun l => l.status == .skipped) ∧
    (get_adherence_stats db uid s e).missed =
      (logsInRange db uid s e).countP (fun l => l.status == .missed) ∧
    (get_adherence_stats db uid s e).taken + (get_adherence_stats db uid s e).skipped +
      (get_adherence_stats db uid s e).missed =
      (get_adherence_stats db uid s e).total_scheduled ∧
    (get_adherence_stats db uid s e).adherence_rate =
      round2 (if 0 < (logsInRange db uid s e).length
        then ((logsInRange db uid s e).countP (fun l => l.status == .taken) : ℚ) /
          ((logsInRange db uid s e).length : ℚ) * 100
        else 0) ∧
    get_adherence_stats c6exDB 1 0 0 =
      { total_scheduled := 10, taken := 7, skipped := 2, missed := 1,
        adherence_rate := 70 } := by
  refine ⟨rfl, rfl, rfl, rfl, count_status_partition _, rfl, ?_⟩
  have hr : (get_adherence_stats c6exDB 1 0 0).adherence_rate = 70 := by
    show round2 ((7 : ℚ)/10*100) = 70
    norm_num [round2, roundHalfEven]
  have h1 : (get_adherence_stats c6exDB 1 0 0).total_scheduled = 10 := by rfl
  have h2 : (get_adherence_stats c6exDB 1 0 0).taken = 7 := by rfl
  have h3 : (get_adherence_stats c6exDB 1 0 0).skipped = 2 := by rfl
  have h4 : (get_adherence_stats c6exDB 1 0 0).missed = 1 := by rfl
  cases hst : get_adherence_stats c6exDB 1 0 0
  rw [hst] at hr h1 h2 h3 h4
  simp_all

/-! ### C8 — reminder creation does not validate its payload -/

/-- A payload that is malformed in both ways named by the claim:
specific-weekdays with an empty weekday set, and `end_date < start_date`. -/
def c8badData : ReminderCreate :=
  { medicine_id := 7, prescription_id := none, reminder_time := 28800000000,
    frequency := .specific_days, specific_days := some [],
    dosage_amount := none, dosage_unit := none, start_date := 10,
    end_date := some 3, is_active := true, notes := none }

def c8db : DB :=
  { reminders := [], logs := [], medicines := [{ id := 7, user_id := 1 }] }

/-- C8, counterexample. --  The claim says such a payload is rejected with
a validation error and nothing is stored.  Neither the pydantic schema nor
`create_reminder` checks the recurrence rule or the date ordering: the
malformed reminder is accepted and persisted. -/
theorem claim_C8_counterexample :
    c8badData.frequency = .specific_days ∧
    c8badData.specific_days = some [] ∧
    c8badData.end_date = some 3 ∧
    c8badData.start_date = 10 ∧
    create_reminder c8db 1 c8badData 1 =
      .ok ({ c8db with reminders := [reminderOf 1 1 c8badData] },
           reminderOf 1 1 c8badData) := by
  refine ⟨rfl, rfl, rfl, rfl, ?_⟩
  decide

/-- C8, amended. --  `create_reminder` performs no validation of the
recurrence rule or the date ordering: whenever the referenced medicine
exists and belongs to the user, the payload — including a
specific-weekdays reminder with an empty or absent weekday set, or an
`end_date` earlier than `start_date` — is persisted unchanged; the only
pre-persistence rejection is a missing/foreign medicine, which errors with
no reminder stored. -/
theorem claim_C8_amended_no_validation (db : DB) (uid : Int)
    (data : ReminderCreate) (new_id : Int) (m : Medicine)
    (hm : db.medicines.find? (fun x =>
        x.id == data.medicine_id && x.user_id == uid) = some m) :
    create_reminder db uid data new_id =
      .ok ({ db with reminders := db.reminders ++ [reminderOf uid new_id data] },
           reminderOf uid new_id data) ∧
    (reminderOf uid new_id data).frequency = data.frequency ∧
    (reminderOf uid new_id data).specific_days = data.specific_days ∧
    (reminderOf uid new_id data).start_date = data.start_date ∧
    (reminderOf uid new_id data).end_date = data.end_date ∧
    (∀ db' : DB, db'.medicines.find? (fun x =>
        x.id == data.medicine_id && x.user_id == uid) = none →
      create_reminder db' uid data new_id = .error .medicineNotFound) := by
  refine ⟨?_, rfl, rfl, rfl, rfl, ?_⟩
  · unfold create_reminder
    rw [hm]
  · intro db' hnone
    unfold create_reminder
    rw [hnone]

theorem claim_C8_witness :
    create_reminder c8db 1 c8badData 2 =
      .ok ({ c8db with reminders := [reminderOf 1 2 c8badData] },
           reminderOf 1 2 c8badData) :=
  (claim_C8_amended_no_validation c8db 1 c8badData 2
    { id := 7, user_id := 1 } (by decide)).1


/-! ### Sweep infrastructure -/

def sweepEligible (logs : List ReminderLog) (today now : Int) (r : Reminder) : Bool :=
  now > combine today r.reminder_time &&
  (sweepLogQuery logs r.id (startOfDay today) now).isEmpty

theorem sweepLoop_nil (logs : List ReminderLog) (today now : Int)
    (staged : List ReminderLog) (count : Nat) :
    sweepLoop logs today now [] staged count = .ok (staged, count) := rfl

theorem sweepLoop_cons (logs : List ReminderLog) (today now : Int) (r : Reminder)
    (rest : List Reminder) (staged : List ReminderLog) (count : Nat) :
    sweepLoop logs today now (r :: rest) staged count =
      (if now > combine today r.reminder_time then
        match scalar_one_or_none
            (sweepLogQuery (logs ++ staged) r.id (startOfDay today) now) with
        | .error e => .error e
        | .ok (some _) => sweepLoop logs today now rest staged count
        | .ok none =>
            sweepLoop logs today now rest
              (staged ++ [mkMissedLog r (combine today r.reminder_time) now])
              (count + 1)
      else sweepLoop logs today now rest staged count) := rfl

theorem scalar_one_or_none_ok_length {α : Type} {xs : List α} {o : Option α}
    (h : scalar_one_or_none xs = .ok o) : xs.length ≤ 1 := by
  match xs with
  | [] => simp
  | [x] => simp
  | a :: b :: rest => simp [scalar_one_or_none] at h

theorem scalar_one_or_none_error {α : Type} {xs : List α} {e : DbError}
    (h : scalar_one_or_none xs = .error e) : e = .multipleResultsFound := by
  match xs with
  | [] => simp [scalar_one_or_none] at h
  | [x] => simp [scalar_one_or_none] at h
  | a :: b :: rest =>
    simp [scalar_one_or_none] at h
    exact h.symm

theorem sweepLogQuery_append (l1 l2 : List ReminderLog) (rid s n : Int) :
    sweepLogQuery (l1 ++ l2) rid s n =
      sweepLogQuery l1 rid s n ++ sweepLogQuery l2 rid s n := by
  unfold sweepLogQuery
  rw [List.filter_append]

theorem sweepLoop_eq_ok (logs : List ReminderLog) (today now : Int) :
    ∀ (rems : List Reminder) (staged : List ReminderLog) (count : Nat),
    (∀ r ∈ rems, now > combine today r.reminder_time →
        (sweepLogQuery logs r.id (startOfDay today) now).length ≤ 1) →
    (∀ r ∈ rems, sweepLogQuery staged r.id (startOfDay today) now = []) →
    (rems.map Reminder.id).Nodup →
    sweepLoop logs today now rems staged count =
      .ok (staged ++ (rems.filter (sweepEligible logs today now)).map
             (fun r => mkMissedLog r (combine today r.reminder_time) now),
           count + (rems.filter (sweepEligible logs today now)).length) := by
  intro rems
  induction rems with
  | nil => intro staged count _ _ _; simp [sweepLoop_nil]
  | cons r rest ih =>
    intro staged count hbound hstaged hnodup
    have hnodup_tail : (rest.map Reminder.id).Nodup := (List.nodup_cons.mp hnodup).2
    have hid_not : r.id ∉ rest.map Reminder.id := (List.nodup_cons.mp hnodup).1
    rw [sweepLoop_cons]
    have hsplit : sweepLogQuery (logs ++ staged) r.id (startOfDay today) now =
        sweepLogQuery logs r.id (startOfDay today) now := by
      rw [sweepLogQuery_append, hstaged r (List.mem_cons_self r rest), List.append_nil]
    by_cases hdue : now > combine today r.reminder_time
    · rw [if_pos hdue, hsplit]
      cases hq : sweepLogQuery logs r.id (startOfDay today) now with
      | nil =>
        have helig : sweepEligible logs today now r = true := by
          simp [sweepEligible, hdue, hq]
        have hstaged2 : ∀ r2 ∈ rest,
            sweepLogQuery (staged ++ [mkMissedLog r (combine today r.reminder_time) now])
              r2.id (startOfDay today) now = [] := by
          intro r2 hr2
          rw [sweepLogQuery_append, hstaged r2 (List.mem_cons_of_mem r hr2)]
          have hne : r2.id ≠ r.id := by
            intro hcontra
            exact hid_not (hcontra ▸ List.mem_map_of_mem Reminder.id hr2)
          simp [sweepLogQuery, mkMissedLog, hne, Ne.symm hne]
        show sweepLoop logs today now rest
            (staged ++ [mkMissedLog r (combine today r.reminder_time) now])
            (count + 1) = _
        rw [ih _ (count + 1)
          (fun r2 hr2 => hbound r2 (List.mem_cons_of_mem r hr2))
          hstaged2 hnodup_tail]
        rw [List.filter_cons, if_pos helig]
        simp only [List.map_cons, List.length_cons, List.append_assoc,
          List.singleton_append, Except.ok.injEq, Prod.mk.injEq]
        exact ⟨trivial, by omega⟩
      | cons a tail =>
        have hlen := hbound r (List.mem_cons_self r rest) hdue
        rw [hq] at hlen
        have htail : tail = [] := by
          cases tail with
          | nil => rfl
          | cons b t => simp at hlen
        subst htail
        have helig : sweepEligible logs today now r = false := by
          simp [sweepEligible, hq]
        show sweepLoop logs today now rest staged count = _
        rw [ih _ count
          (fun r2 hr2 => hbound r2 (List.mem_cons_of_mem r hr2))
          (fun r2 hr2 => hstaged r2 (List.mem_cons_of_mem r hr2))
          hnodup_tail]
        rw [List.filter_cons, if_neg (by simp [helig])]
    · rw [if_neg hdue]
      have helig : sweepEligible logs today now r = false := by
        simp [sweepEligible, hdue]
      rw [ih _ count
        (fun r2 hr2 => hbound r2 (List.mem_cons_of_mem r hr2))
        (fun r2 hr2 => hstaged r2 (List.mem_cons_of_mem r hr2))
        hnodup_tail]
      rw [List.filter_cons, if_neg (by simp [helig])]

theorem sweepLoop_ok_bound (logs : List ReminderLog) (today now : Int) :
    ∀ (rems : List Reminder) (staged : List ReminderLog) (count : Nat)
      (res : List ReminderLog × Nat),
    sweepLoop logs today now rems staged count = .ok res →
    ∀ r ∈ rems, now > combine today r.reminder_time →
      (sweepLogQuery logs r.id (startOfDay today) now).length ≤ 1 := by
  intro rems
  induction rems with
  | nil => intro staged count res _ r hr; cases hr
  | cons a rest ih =>
    intro staged count res h r hr hdue
    rw [sweepLoop_cons] at h
    by_cases hadue : now > combine today a.reminder_time
    · rw [if_pos hadue] at h
      cases hq : scalar_one_or_none
          (sweepLogQuery (logs ++ staged) a.id (startOfDay today) now) with
      | error e => rw [hq] at h; cases h
      | ok o =>
        have hlen2 := scalar_one_or_none_ok_length hq
        rw [sweepLogQuery_append, List.length_append] at hlen2
        rw [hq] at h
        rcases List.mem_cons.mp hr with heq | hmem
        · subst heq; omega
        · cases o with
          | some v => exact ih staged count res h r hmem hdue
          | none =>
            exact ih (staged ++ [mkMissedLog a (combine today a.reminder_time) now])
              (count + 1) res h r hmem hdue
    · rw [if_neg hadue] at h
      rcases List.mem_cons.mp hr with heq | hmem
      · subst heq; exact absurd hdue hadue
      · exact ih staged count res h r hmem hdue

theorem sweepLoop_error_of_dup (logs : List ReminderLog) (today now : Int) :
    ∀ (rems : List Reminder) (staged : List ReminderLog) (count : Nat),
    (∃ r ∈ rems, now > combine today r.reminder_time ∧
        2 ≤ (sweepLogQuery logs r.id (startOfDay today) now).length) →
    sweepLoop logs today now rems staged count = .error .multipleResultsFound := by
  intro rems
  induction rems with
  | nil => rintro staged count ⟨r, hr, _⟩; cases hr
  | cons a rest ih =>
    rintro staged count ⟨r, hr, hdue, h2⟩
    rw [sweepLoop_cons]
    by_cases hadue : now > combine today a.reminder_time
    · rw [if_pos hadue]
      cases hq : scalar_one_or_none
          (sweepLogQuery (logs ++ staged) a.id (startOfDay today) now) with
      | error e =>
        show (Except.error e : Except DbError (List ReminderLog × Nat)) = _
        rw [scalar_one_or_none_error hq]
      | ok o =>
        have hlen := scalar_one_or_none_ok_length hq
        rw [sweepLogQuery_append, List.length_append] at hlen
        rcases List.mem_cons.mp hr with heq | hmem
        · subst heq; omega
        · cases o with
          | some v =>
            show sweepLoop logs today now rest staged count = _
            exact ih staged count ⟨r, hmem, hdue, h2⟩
          | none =>
            show sweepLoop logs today now rest
              (staged ++ [mkMissedLog a (combine today a.reminder_time) now])
              (count + 1) = _
            exact ih (staged ++ [mkMissedLog a (combine today a.reminder_time) now])
              (count + 1) ⟨r, hmem, hdue, h2⟩
    · rw [if_neg hadue]
      rcases List.mem_cons.mp hr with heq | hmem
      · subst heq; exact absurd hdue hadue
      · exact ih staged count ⟨r, hmem, hdue, h2⟩

/-- The rows a successful sweep appends: one missed log per active
in-window reminder that is past due and has no same-day log yet. -/
def sweepNewLogs (db : DB) (user_id today now : Int) : List ReminderLog :=
  ((activeWindowReminders db user_id today).filter
      (sweepEligible db.logs today now)).map
    (fun r => mkMissedLog r (combine today r.reminder_time) now)

theorem nodup_ids_activeWindow (db : DB) (user_id today : Int)
    (h : (db.reminders.map Reminder.id).Nodup) :
    ((activeWindowReminders db user_id today).map Reminder.id).Nodup := by
  unfold activeWindowReminders
  exact ((List.filter_sublist db.reminders).map Reminder.id).nodup h

theorem mark_overdue_eq_ok (db : DB) (user_id today now : Int)
    (hbound : ∀ r ∈ activeWindowReminders db user_id today,
        now > combine today r.reminder_time →
        (sweepLogQuery db.logs r.id (startOfDay today) now).length ≤ 1)
    (hnodup : ((activeWindowReminders db user_id today).map Reminder.id).Nodup) :
    mark_overdue_reminders_as_missed db user_id today now =
      .ok ({ db with logs := db.logs ++ sweepNewLogs db user_id today now },
           (sweepNewLogs db user_id today now).length) := by
  show (match sweepLoop db.logs today now (activeWindowReminders db user_id today)
      [] 0 with
    | Except.error e => Except.error e
    | Except.ok (staged, count) =>
      Except.ok (if count > 0 then { db with logs := db.logs ++ staged } else db,
        count)) = _
  rw [sweepLoop_eq_ok db.logs today now (activeWindowReminders db user_id today)
    [] 0 hbound (fun r _ => rfl) hnodup]
  show Except.ok _ = _
  unfold sweepNewLogs
  rw [List.nil_append, Nat.zero_add, List.length_map]
  cases hf : (activeWindowReminders db user_id today).filter
      (sweepEligible db.logs today now) with
  | nil => simp
  | cons x xs => simp

theorem mark_overdue_ok_bound (db : DB) (user_id today now : Int)
    (db1 : DB) (c1 : Nat)
    (h : mark_overdue_reminders_as_missed db user_id today now = .ok (db1, c1)) :
    ∀ r ∈ activeWindowReminders db user_id today,
      now > combine today r.reminder_time →
      (sweepLogQuery db.logs r.id (startOfDay today) now).length ≤ 1 := by
  have h' : (match sweepLoop db.logs today now
      (activeWindowReminders db user_id today) [] 0 with
    | Except.error e => Except.error e
    | Except.ok (staged, count) =>
      Except.ok (if count > 0 then { db with logs := db.logs ++ staged } else db,
        count)) = Except.ok (db1, c1) := h
  cases hs : sweepLoop db.logs today now (activeWindowReminders db user_id today)
      [] 0 with
  | error e => rw [hs] at h'; cases h'
  | ok res =>
    exact sweepLoop_ok_bound db.logs today now _ [] 0 res hs

def c3rem : Reminder :=
  { id := 1, user_id := 1, medicine_id := 1, prescription_id := none,
    reminder_time := 28800000000, frequency := .specific_days,
    specific_days := some [0],
    dosage_amount := none, dosage_unit := none, start_date := 0,
    end_date := none, is_active := true, notes := none }

def c3db : DB := { reminders := [c3rem], logs := [], medicines := [] }

/-- C3, counterexample.  A Mondays-only (specific-weekdays) reminder is not
due on a Tuesday (day 1), and `get_today_reminders` indeed excludes it —
yet `mark_overdue_reminders_as_missed` still appends a "missed" event for
it, because the sweep never consults the recurrence rule. -/
theorem claim_C3_counterexample :
    c3rem.frequency = .specific_days ∧
    c3rem.specific_days = some [0] ∧
    (1 : Int).emod 7 ∉ [(0 : Int)] ∧
    get_today_reminders c3db 1 1 = [] ∧
    mark_overdue_reminders_as_missed c3db 1 1 (combine 1 28800000001) =
      .ok ({ c3db with
              logs := [mkMissedLog c3rem (combine 1 28800000000)
                         (combine 1 28800000001)] }, 1) := by
  refine ⟨rfl, rfl, by decide, by decide, by decide⟩

/-- C3, amended.  The sweep ignores the recurrence rule: every reminder of
the user that is active, inside its validity window, strictly past its
scheduled instant and without an existing same-day event receives a missed
event — with no hypothesis on its frequency or weekday set, and even when
the specific-weekdays rule excludes today (last conjunct: such a reminder
is not in today's list, yet still swept). -/
theorem claim_C3_amended_sweep_ignores_recurrence
    (db : DB) (uid today now : Int) (r : Reminder)
    (hnodup : (db.reminders.map Reminder.id).Nodup)
    (hbound : ∀ x ∈ activeWindowReminders db uid today,
        now > combine today x.reminder_time →
        (sweepLogQuery db.logs x.id (startOfDay today) now).length ≤ 1)
    (hr : r ∈ activeWindowReminders db uid today)
    (hdue : now > combine today r.reminder_time)
    (hnolog : sweepLogQuery db.logs r.id (startOfDay today) now = []) :
    mark_overdue_reminders_as_missed db uid today now =
      .ok ({ db with logs := db.logs ++ sweepNewLogs db uid today now },
           (sweepNewLogs db uid today now).length) ∧
    mkMissedLog r (combine today r.reminder_time) now ∈
      sweepNewLogs db uid today now ∧
    1 ≤ (sweepNewLogs db uid today now).length ∧
    (∀ ds, r.frequency = .specific_days → r.specific_days = some ds →
      today.emod 7 ∉ ds → r ∉ get_today_reminders db uid today) := by
  have helig : sweepEligible db.logs today now r = true := by
    simp [sweepEligible, hdue, hnolog]
  have hmemf : r ∈ (activeWindowReminders db uid today).filter
      (sweepEligible db.logs today now) :=
    List.mem_filter.mpr ⟨hr, helig⟩
  have hmem : mkMissedLog r (combine today r.reminder_time) now ∈
      sweepNewLogs db uid today now :=
    List.mem_map_of_mem _ hmemf
  refine ⟨mark_overdue_eq_ok db uid today now hbound
      (nodup_ids_activeWindow db uid today hnodup), hmem, ?_, ?_⟩
  · have := List.length_pos.mpr (List.ne_nil_of_mem hmem)
    omega
  · intro ds hfreq hds hnotin hcontra
    unfold get_today_reminders at hcontra
    have hpred := (List.mem_filter.mp hcontra).2
    rw [hfreq, hds] at hpred
    simp at hpred
    exact hnotin hpred.2

theorem claim_C3_witness :
    mark_overdue_reminders_as_missed c3db 1 1 (combine 1 28800000001) =
      .ok ({ c3db with logs := c3db.logs ++ sweepNewLogs c3db 1 1 (combine 1 28800000001) },
           (sweepNewLogs c3db 1 1 (combine 1 28800000001)).length) ∧
    mkMissedLog c3rem (combine 1 28800000000) (combine 1 28800000001) ∈
      sweepNewLogs c3db 1 1 (combine 1 28800000001) ∧
    1 ≤ (sweepNewLogs c3db 1 1 (combine 1 28800000001)).length ∧
    c3rem ∉ get_today_reminders c3db 1 1 := by
  have h := claim_C3_amended_sweep_ignores_recurrence c3db 1 1
    (combine 1 28800000001) c3rem (by decide) (by decide) (by decide)
    (by decide) (by decide)
  exact ⟨h.1, h.2.1, h.2.2.1, h.2.2.2 [0] rfl rfl (by decide)⟩

/-- C10.  If some active in-window past-due reminder has two or more events
logged for today with `scheduled_time` up to `now`, the sweep's
`scalar_one_or_none` raises `MultipleResultsFound` instead of skipping that
reminder, and — since the commit at the end of the sweep is never reached —
no missed event is committed for any reminder: the observed state is
unchanged. -/
theorem claim_C10_sweep_raises_on_duplicate_events
    (db : DB) (uid today now : Int) (r : Reminder)
    (hr : r ∈ activeWindowReminders db uid today)
    (hdue : now > combine today r.reminder_time)
    (h2 : 2 ≤ (sweepLogQuery db.logs r.id (startOfDay today) now).length) :
    mark_overdue_reminders_as_missed db uid today now =
      .error .multipleResultsFound ∧
    sweepCommittedState db uid today now = db := by
  have herr : mark_overdue_reminders_as_missed db uid today now =
      .error .multipleResultsFound := by
    show (match sweepLoop db.logs today now
        (activeWindowReminders db uid today) [] 0 with
      | Except.error e => Except.error e
      | Except.ok (staged, count) =>
        Except.ok (if count > 0 then { db with logs := db.logs ++ staged } else db,
          count)) = _
    rw [sweepLoop_error_of_dup db.logs today now _ [] 0 ⟨r, hr, hdue, h2⟩]
  refine ⟨herr, ?_⟩
  unfold sweepCommittedState
  rw [herr]

def c10log (i : Int) (st : ReminderStatus) : ReminderLog :=
  { id := i, reminder_id := 1, scheduled_time := combine 3 28800000000,
    taken_time := none, status := st, notes := none, created_at := i }

def c10rem : Reminder :=
  { id := 1, user_id := 1, medicine_id := 1, prescription_id := none,
    reminder_time := 28800000000, frequency := .daily, specific_days := none,
    dosage_amount := none, dosage_unit := none, start_date := 0,
    end_date := none, is_active := true, notes := none }

def c10db : DB :=
  { reminders := [c10rem], logs := [c10log 1 .taken, c10log 2 .skipped],
    medicines := [] }

theorem claim_C10_witness :
    mark_overdue_reminders_as_missed c10db 1 3 (combine 3 28800000001) =
      .error .multipleResultsFound ∧
    sweepCommittedState c10db 1 3 (combine 3 28800000001) = c10db :=
  claim_C10_sweep_raises_on_duplicate_events c10db 1 3 (combine 3 28800000001)
    c10rem (by decide) (by decide) (by decide)

theorem mem_activeWindow_sub (db : DB) (uid today : Int) {r : Reminder}
    (h : r ∈ activeWindowReminders db uid today) : r ∈ db.reminders :=
  (List.mem_filter.mp h).1

theorem query_staged_none (logs : List ReminderLog) (today now : Int) :
    ∀ (L : List Reminder) (rid : Int), rid ∉ L.map Reminder.id →
    sweepLogQuery ((L.filter (sweepEligible logs today now)).map
        (fun x => mkMissedLog x (combine today x.reminder_time) now))
      rid (startOfDay today) now = [] := by
  intro L rid hrid
  unfold sweepLogQuery
  rw [List.filter_eq_nil_iff]
  intro l hl
  rcases List.mem_map.mp hl with ⟨x, hxf, hxl⟩
  have hx : x ∈ L := (List.mem_filter.mp hxf).1
  have hne : x.id ≠ rid := by
    intro hcontra
    exact hrid (hcontra ▸ List.mem_map_of_mem Reminder.id hx)
  subst hxl
  simp [mkMissedLog, hne]

theorem sweepEligible_parts {logs : List ReminderLog} {today now : Int}
    {r : Reminder} (h : sweepEligible logs today now r = true) :
    now > combine today r.reminder_time ∧
    sweepLogQuery logs r.id (startOfDay today) now = [] := by
  unfold sweepEligible at h
  simp only [Bool.and_eq_true, decide_eq_true_eq, List.isEmpty_iff] at h
  exact h

theorem query_staged_of_mem (logs : List ReminderLog) (today now : Int) :
    ∀ (L : List Reminder) (r : Reminder), r ∈ L → (L.map Reminder.id).Nodup →
    0 ≤ r.reminder_time →
    sweepLogQuery ((L.filter (sweepEligible logs today now)).map
        (fun x => mkMissedLog x (combine today x.reminder_time) now))
      r.id (startOfDay today) now =
      (if sweepEligible logs today now r
       then [mkMissedLog r (combine today r.reminder_time) now] else []) := by
  intro L
  induction L with
  | nil => intro r hr; cases hr
  | cons a L ih =>
    intro r hr hnd ht
    have hnd_tail : (L.map Reminder.id).Nodup := (List.nodup_cons.mp hnd).2
    have hid_not : a.id ∉ L.map Reminder.id := (List.nodup_cons.mp hnd).1
    rcases List.mem_cons.mp hr with heq | hmem
    · subst heq
      rw [List.filter_cons]
      by_cases helig : sweepEligible logs today now r = true
      · rw [if_pos helig, List.map_cons]
        have hdue := (sweepEligible_parts helig).1
        unfold sweepLogQuery
        rw [List.filter_cons]
        rw [if_pos (by
          simp only [mkMissedLog, beq_self_eq_true, Bool.true_and]
          have h1 : startOfDay today ≤ combine today r.reminder_time := by
            unfold startOfDay combine
            omega
          have h2 : combine today r.reminder_time ≤ now := le_of_lt hdue
          simp [h1, h2])]
        have := query_staged_none logs today now L r.id hid_not
        unfold sweepLogQuery at this
        rw [this, if_pos helig]
      · rw [if_neg helig, if_neg helig]
        exact query_staged_none logs today now L r.id hid_not
    · have hne : a.id ≠ r.id := by
        intro hcontra
        exact hid_not (hcontra ▸ List.mem_map_of_mem Reminder.id hmem)
      rw [List.filter_cons]
      by_cases helig : sweepEligible logs today now a = true
      · rw [if_pos helig, List.map_cons]
        unfold sweepLogQuery
        rw [List.filter_cons]
        rw [if_neg (by simp [mkMissedLog, hne])]
        have := ih r hmem hnd_tail ht
        unfold sweepLogQuery at this
        rw [this]
      · rw [if_neg helig]
        exact ih r hmem hnd_tail ht

theorem sweepNewLogs_query (db : DB) (uid today now : Int) (r : Reminder)
    (hr : r ∈ activeWindowReminders db uid today)
    (hnd : ((activeWindowReminders db uid today).map Reminder.id).Nodup)
    (ht : 0 ≤ r.reminder_time) :
    sweepLogQuery (sweepNewLogs db uid today now) r.id (startOfDay today) now =
      (if sweepEligible db.logs today now r
       then [mkMissedLog r (combine today r.reminder_time) now] else []) :=
  query_staged_of_mem db.logs today now _ r hr hnd ht

theorem sweepEligible_false_of_due {logs : List ReminderLog} {today now : Int}
    {r : Reminder} (hne : sweepLogQuery logs r.id (startOfDay today) now ≠ []) :
    sweepEligible logs today now r = false := by
  unfold sweepEligible
  cases hq : sweepLogQuery logs r.id (startOfDay today) now with
  | nil => exact absurd hq hne
  | cons a tail => simp

/-- C4.  The sweep is idempotent per calendar day: under the database
invariants that reminder ids are unique and reminder times-of-day are
nonnegative, if a first run succeeds with state `db1`, an immediate second
run returns `db1` unchanged with count 0 — no additional missed rows, and
the day's missed total is what the single run produced. -/
theorem claim_C4_sweep_idempotent (db : DB) (uid today now : Int)
    (db1 : DB) (c1 : Nat)
    (hnodup : (db.reminders.map Reminder.id).Nodup)
    (htime : ∀ r ∈ db.reminders, 0 ≤ r.reminder_time)
    (h1 : mark_overdue_reminders_as_missed db uid today now = .ok (db1, c1)) :
    mark_overdue_reminders_as_missed db1 uid today now = .ok (db1, 0) := by
  have hboundD := mark_overdue_ok_bound db uid today now db1 c1 h1
  have hndf := nodup_ids_activeWindow db uid today hnodup
  have hok := mark_overdue_eq_ok db uid today now hboundD hndf
  rw [h1] at hok
  have hpair := Except.ok.inj hok
  have hdb1 : db1 = { db with logs := db.logs ++ sweepNewLogs db uid today now } :=
    congrArg Prod.fst hpair
  have hreme : db1.reminders = db.reminders := by rw [hdb1]
  have hAWR : activeWindowReminders db1 uid today =
      activeWindowReminders db uid today := by
    unfold activeWindowReminders
    rw [hreme]
  have hlogs1 : db1.logs = db.logs ++ sweepNewLogs db uid today now := by
    rw [hdb1]
  have hquery1 : ∀ r ∈ activeWindowReminders db uid today,
      now > combine today r.reminder_time →
      (sweepLogQuery db1.logs r.id (startOfDay today) now).length = 1 := by
    intro r hr hdue
    rw [hlogs1, sweepLogQuery_append, List.length_append]
    have hq := sweepNewLogs_query db uid today now r hr hndf
      (htime r (mem_activeWindow_sub db uid today hr))
    by_cases helig : sweepEligible db.logs today now r = true
    · rw [hq, if_pos helig, (sweepEligible_parts helig).2]
      rfl
    · have heligf : sweepEligible db.logs today now r = false :=
        Bool.eq_false_iff.mpr helig
      rw [hq, if_neg helig, List.length_nil]
      have hle := hboundD r hr hdue
      have hne : sweepLogQuery db.logs r.id (startOfDay today) now ≠ [] := by
        intro hcontra
        unfold sweepEligible at heligf
        rw [hcontra] at heligf
        simp [hdue] at heligf
      have hpos : 0 < (sweepLogQuery db.logs r.id (startOfDay today) now).length :=
        List.length_pos.mpr hne
      omega
  have hbound1 : ∀ r ∈ activeWindowReminders db1 uid today,
      now > combine today r.reminder_time →
      (sweepLogQuery db1.logs r.id (startOfDay today) now).length ≤ 1 := by
    rw [hAWR]
    intro r hr hdue
    exact le_of_eq (hquery1 r hr hdue)
  have hnd1 : ((activeWindowReminders db1 uid today).map Reminder.id).Nodup := by
    rw [hAWR]
    exact hndf
  have hok2 := mark_overdue_eq_ok db1 uid today now hbound1 hnd1
  have hnew2 : sweepNewLogs db1 uid today now = [] := by
    unfold sweepNewLogs
    rw [hAWR]
    have hfilter : (activeWindowReminders db uid today).filter
        (sweepEligible db1.logs today now) = [] := by
      rw [List.filter_eq_nil_iff]
      intro r hr
      by_cases hdue : now > combine today r.reminder_time
      · have hlen := hquery1 r hr hdue
        have hne : sweepLogQuery db1.logs r.id (startOfDay today) now ≠ [] := by
          intro hcontra
          rw [hcontra] at hlen
          simp at hlen
        rw [sweepEligible_false_of_due hne]
        simp
      · unfold sweepEligible
        simp [hdue]
    rw [hfilter]
    rfl
  rw [hnew2] at hok2
  rw [List.append_nil] at hok2
  have : { db1 with logs := db1.logs } = db1 := rfl
  rw [this] at hok2
  exact hok2

def c4rem : Reminder :=
  { id := 1, user_id := 1, medicine_id := 1, prescription_id := none,
    reminder_time := 28800000000, frequency := .daily, specific_days := none,
    dosage_amount := none, dosage_unit := none, start_date := 0,
    end_date := none, is_active := true, notes := none }

def c4db : DB := { reminders := [c4rem], logs := [], medicines := [] }

def c4db1 : DB :=
  { c4db with
    logs := [mkMissedLog c4rem (combine 5 28800000000) (combine 5 28800000001)] }

theorem claim_C4_witness :
    mark_overdue_reminders_as_missed c4db1 1 5 (combine 5 28800000001) =
      .ok (c4db1, 0) :=
  claim_C4_sweep_idempotent c4db 1 5 (combine 5 28800000001) c4db1 1
    (by decide) (by decide) (by decide)

def c7rem : Reminder :=
  { id := 1, user_id := 1, medicine_id := 1, prescription_id := none,
    reminder_time := 28800000000, frequency := .daily, specific_days := none,
    dosage_amount := none, dosage_unit := none, start_date := 0,
    end_date := none, is_active := true, notes := none }

def c7log (i : Int) (d : Int) (st : ReminderStatus) : ReminderLog :=
  { id := i, reminder_id := 1, scheduled_time := combine d 28800000000,
    taken_time := none, status := st, notes := none, created_at := i }

def c7db : DB :=
  { reminders := [c7rem],
    logs := [c7log 1 398 .taken, c7log 2 399 .missed, c7log 3 399 .taken,
             c7log 4 400 .taken],
    medicines := [] }


/-- Unfolding lemma: `streakStep` with its local bindings expanded. -/
theorem streakStep_def (db : DB) (uid today : Int) (acc : StreakAcc) (i : Nat) :
    streakStep db uid today acc i =
      (if (dayLogs db uid (today - (i : Int))).isEmpty then acc
       else if (dayLogs db uid (today - (i : Int))).countP
             (fun l => l.status == .taken) ==
             (dayLogs db uid (today - (i : Int))).length
           && decide ((dayLogs db uid (today - (i : Int))).length > 0) then
         { current_streak := acc.current_streak + 1,
           longest_streak :=
             if acc.current_streak + 1 > acc.longest_streak
             then acc.current_streak + 1 else acc.longest_streak,
           last_perfect_date := some (today - (i : Int)) }
       else if i == 0 then acc
       else if (today - (i : Int)) == today then acc
       else { acc with current_streak := 0 }) := rfl

set_option maxRecDepth 4000 in
/-- C7.  The streak scan (oldest to newest, offsets 365..0 before today)
behaves per day as the claim states: a zero-event day leaves the
accumulator unchanged; a day with events all taken extends the current
streak and updates the longest; an imperfect day with events resets the
current streak to 0 unless it is the current day (offset 0), which never
breaks the streak; the longest streak is the running maximum of the current
streak.  On days D1 perfect, D2 imperfect (1 missed of 2), D3 = today
perfect, the result is current_streak = 1 and longest_streak = 1. -/
theorem claim_C7_streak (db : DB) (uid today : Int) (acc : StreakAcc) (i : Nat) :
    (dayLogs db uid (today - (i : Int)) = [] →
      streakStep db uid today acc i = acc) ∧
    (dayLogs db uid (today - (i : Int)) ≠ [] →
      (dayLogs db uid (today - (i : Int))).countP (fun l => l.status == .taken) =
          (dayLogs db uid (today - (i : Int))).length →
      streakStep db uid today acc i =
        { current_streak := acc.current_streak + 1,
          longest_streak :=
            if acc.current_streak + 1 > acc.longest_streak
            then acc.current_streak + 1 else acc.longest_streak,
          last_perfect_date := some (today - (i : Int)) }) ∧
    (dayLogs db uid (today - (i : Int)) ≠ [] →
      (dayLogs db uid (today - (i : Int))).countP (fun l => l.status == .taken) ≠
          (dayLogs db uid (today - (i : Int))).length →
      i ≠ 0 →
      streakStep db uid today acc i = { acc with current_streak := 0 }) ∧
    (dayLogs db uid (today - (i : Int)) ≠ [] →
      (dayLogs db uid (today - (i : Int))).countP (fun l => l.status == .taken) ≠
          (dayLogs db uid (today - (i : Int))).length →
      i = 0 →
      streakStep db uid today acc i = acc) ∧
    (acc.current_streak ≤ acc.longest_streak →
      (streakStep db uid today acc i).current_streak ≤
        (streakStep db uid today acc i).longest_streak ∧
      acc.longest_streak ≤ (streakStep db uid today acc i).longest_streak ∧
      (streakStep db uid today acc i).longest_streak =
        max acc.longest_streak (streakStep db uid today acc i).current_streak) ∧
    get_adherence_streak c7db 1 400 =
      { current_streak := 1, longest_streak := 1, last_taken_date := some 400 } := by
  have hempty : dayLogs db uid (today - (i : Int)) = [] →
      streakStep db uid today acc i = acc := by
    intro h
    rw [streakStep_def, h]
    rfl
  have hperfect : dayLogs db uid (today - (i : Int)) ≠ [] →
      (dayLogs db uid (today - (i : Int))).countP (fun l => l.status == .taken) =
        (dayLogs db uid (today - (i : Int))).length →
      streakStep db uid today acc i =
        { current_streak := acc.current_streak + 1,
          longest_streak :=
            if acc.current_streak + 1 > acc.longest_streak
            then acc.current_streak + 1 else acc.longest_streak,
          last_perfect_date := some (today - (i : Int)) } := by
    intro hne hcnt
    have hpos : 0 < (dayLogs db uid (today - (i : Int))).length :=
      List.length_pos.mpr hne
    rw [streakStep_def]
    rw [if_neg (by simp [List.isEmpty_iff, hne])]
    rw [if_pos (by simp [hcnt]; omega)]
  have himperfect : dayLogs db uid (today - (i : Int)) ≠ [] →
      (dayLogs db uid (today - (i : Int))).countP (fun l => l.status == .taken) ≠
        (dayLogs db uid (today - (i : Int))).length →
      streakStep db uid today acc i =
        (if i = 0 then acc else { acc with current_streak := 0 }) := by
    intro hne hcnt
    rw [streakStep_def]
    rw [if_neg (by simp [List.isEmpty_iff, hne])]
    rw [if_neg (by simp [hcnt])]
    by_cases hi : i = 0
    · rw [if_pos (by simp [hi]), if_pos hi]
    · rw [if_neg (by simp [hi]), if_neg hi]
      rw [if_neg (by
        simp only [beq_iff_eq]
        intro hcontra
        apply hi
        omega)]
  refine ⟨hempty, hperfect, ?_, ?_, ?_, by decide⟩
  · intro hne hcnt hi
    rw [himperfect hne hcnt, if_neg hi]
  · intro hne hcnt hi
    rw [himperfect hne hcnt, if_pos hi]
  · intro hacc
    by_cases hem : dayLogs db uid (today - (i : Int)) = []
    · rw [hempty hem]
      refine ⟨hacc, le_refl _, by omega⟩
    · by_cases hcnt : (dayLogs db uid (today - (i : Int))).countP
          (fun l => l.status == .taken) =
          (dayLogs db uid (today - (i : Int))).length
      · rw [hperfect hem hcnt]
        by_cases hgt : acc.current_streak + 1 > acc.longest_streak
        · rw [if_pos hgt]
          show acc.current_streak + 1 ≤ acc.current_streak + 1 ∧
            acc.longest_streak ≤ acc.current_streak + 1 ∧
            acc.current_streak + 1 = max acc.longest_streak (acc.current_streak + 1)
          omega
        · rw [if_neg hgt]
          show acc.current_streak + 1 ≤ acc.longest_streak ∧
            acc.longest_streak ≤ acc.longest_streak ∧
            acc.longest_streak = max acc.longest_streak (acc.current_streak + 1)
          omega
      · rw [himperfect hem hcnt]
        by_cases hi : i = 0
        · rw [if_pos hi]
          refine ⟨hacc, le_refl _, by omega⟩
        · rw [if_neg hi]
          show (0 : Nat) ≤ acc.longest_streak ∧
            acc.longest_streak ≤ acc.longest_streak ∧
            acc.longest_streak = max acc.longest_streak 0
          omega

def c7acc0 : StreakAcc :=
  { current_streak := 0, longest_streak := 0, last_perfect_date := none }

def c7acc1 : StreakAcc :=
  { current_streak := 1, longest_streak := 1, last_perfect_date := some 398 }

def c7acc2 : StreakAcc :=
  { current_streak := 0, longest_streak := 1, last_perfect_date := some 398 }

set_option maxRecDepth 4000 in
theorem claim_C7_witness :
    streakStep c7db 1 400 c7acc0 2 =
      { current_streak := 1, longest_streak := 1, last_perfect_date := some 398 } ∧
    streakStep c7db 1 400 c7acc1 1 =
      { current_streak := 0, longest_streak := 1, last_perfect_date := some 398 } ∧
    streakStep c7db 1 400 c7acc2 0 =
      { current_streak := 1, longest_streak := 1, last_perfect_date := some 400 } ∧
    get_adherence_streak c7db 1 400 =
      { current_streak := 1, longest_streak := 1, last_taken_date := some 400 } := by
  refine ⟨?_, ?_, ?_, (claim_C7_streak c7db 1 400 c7acc0 0).2.2.2.2.2⟩
  · rw [(claim_C7_streak c7db 1 400 c7acc0 2).2.1 (by decide) (by decide)]
    decide
  · rw [(claim_C7_streak c7db 1 400 c7acc1 1).2.2.1 (by decide) (by decide)
      (by decide)]
    decide
  · rw [(claim_C7_streak c7db 1 400 c7acc2 0).2.1 (by decide) (by decide)]
    decide

end Pillio
